import Mathlib

/-!
Verification of the FPL-Optimization-Tools core: the weighted job planner
and job construction of `src/run/simulations.py`, and the TTL read-through
cache `cached_request` of `src/utils.py`.  Real-number arithmetic of the
source (Python floats) is modelled exactly over `ℚ`; `time.time()` values
are rationals; JSON payloads of the cache are opaque strings.
-/

namespace Sim

/-- Python's built-in `round` on an exact value: round to the nearest
integer, ties to even (`round(0.5) = 0`, `round(1.5) = 2`). -/
def pyRound (q : ℚ) : ℤ :=
  if q - ⌊q⌋ < 1/2 then ⌊q⌋
  else if 1/2 < q - ⌊q⌋ then ⌊q⌋ + 1
  else if 2 ∣ ⌊q⌋ then ⌊q⌋ else ⌊q⌋ + 1

/-- A weight table: Python dicts iterate in insertion order, so
`settings["binary_file_weights"]` is an ordered association list. -/
def WeightTable := List (String × ℚ)

/-- `total_weights = sum(weights.values())` in
`run_simulations_with_binaries`. -/
def totalWeights (weights : List (String × ℚ)) : ℚ :=
  (weights.map Prod.snd).sum

/-- Errors the planning loop can raise: `weight / total_weights` raises
`ZeroDivisionError` when the weights sum to zero. -/
inductive PlanError where
  | zeroDivisionError
deriving DecidableEq, Repr

/-- The `for binary, weight in weights.items()` loop of
`run_simulations_with_binaries`, restricted to the per-source count it
computes: each iteration first evaluates `weight / total_weights`
(raising `ZeroDivisionError` when `total = 0`) and then
`weighted_runs = round(scaled_weight * runs)`. -/
def planLoop (total : ℚ) (runs : ℕ) : List (String × ℚ) → Except PlanError (List (String × ℤ))
  | [] => Except.ok []
  | (binary, weight) :: rest =>
    if total = 0 then Except.error PlanError.zeroDivisionError
    else
      match planLoop total runs rest with
      | Except.error e => Except.error e
      | Except.ok tail => Except.ok ((binary, pyRound (weight / total * runs)) :: tail)

/-- The weighted job planner of `run_simulations_with_binaries`
(lines 45–53): sum the weights, then allocate
`round(weight / total_weights * runs)` simulations per binary, in table
order.  An empty table makes the loop body never execute. -/
def planWeightedJobs (weights : List (String × ℚ)) (runs : ℕ) : Except PlanError (List (String × ℤ)) :=
  planLoop (totalWeights weights) runs weights

/-- `settings.get("binary_file_weights", {})`: a missing table is read as
the empty dict. -/
def getWeightTable (settings : Option (List (String × ℚ))) : List (String × ℚ) :=
  settings.getD []

/-- Values stored in a job-specification dict. -/
inductive JVal where
  | s (v : String)
  | b (v : Bool)
  | i (v : ℤ)
deriving DecidableEq, Repr

/-- A Python dict literal built left to right: later bindings override
earlier ones, so lookup prefers the rightmost binding of a key. -/
def dictGet : List (String × JVal) → String → Option JVal
  | [], _ => none
  | (k, v) :: rest, key =>
    match dictGet rest key with
    | some v' => some v'
    | none => if k == key then some v else none

/-- Python `str.rstrip(chars)`: remove every trailing character that is a
member of `chars` (a character set, not a suffix). -/
def pyRstrip (s : String) (chars : String) : String :=
  ⟨((s.toList.reverse).dropWhile (fun c => c ∈ chars.toList)).reverse⟩

/-- One element of `all_jobs` in `run_simulations_with_binaries` (line 58):
`{"run_no": str(i + 1), "randomized": True,
  "datasource": binary.rstrip(".csv"), **runtime_options}`. -/
def mkBinaryJob (binary : String) (runtime_options : List (String × JVal)) (i : ℕ) : List (String × JVal) :=
  [("run_no", JVal.s (toString (i + 1))),
   ("randomized", JVal.b true),
   ("datasource", JVal.s (pyRstrip binary ".csv"))] ++ runtime_options

/-- `all_jobs` for one binary file: jobs for `i in range(weighted_runs)`. -/
def binaryJobs (binary : String) (runtime_options : List (String × JVal)) (weighted_runs : ℕ) : List (List (String × JVal)) :=
  (List.range weighted_runs).map (mkBinaryJob binary runtime_options)

/-- One element of `all_jobs` in `run_simulations_standard` (line 67):
`{"run_no": str(i + 1), "randomized": True, **runtime_options}`. -/
def mkStandardJob (runtime_options : List (String × JVal)) (i : ℕ) : List (String × JVal) :=
  [("run_no", JVal.s (toString (i + 1))),
   ("randomized", JVal.b true)] ++ runtime_options

/-- `all_jobs` of `run_simulations_standard`: jobs for `i in range(runs)`. -/
def standardJobs (runtime_options : List (String × JVal)) (runs : ℕ) : List (List (String × JVal)) :=
  (List.range runs).map (mkStandardJob runtime_options)

end Sim

namespace Cache

/-- `CACHE_EXPIRATION = 300` in `src/utils.py`. -/
def CACHE_EXPIRATION : ℚ := 300

/-- One value of the persisted cache dict: `{"data": ..., "timestamp": ...}`.
The `timestamp` key may be absent from a stored entry
(`cached_entry.get("timestamp", 0)` defends against that). -/
structure CacheEntry where
  data : String
  timestamp : Option ℚ
deriving DecidableEq, Repr

/-- `cached_entry.get("timestamp", 0)`. -/
def entryTimestamp (e : CacheEntry) : ℚ :=
  e.timestamp.getD 0

/-- The in-memory cache dict: url → entry, insertion ordered. -/
def Store := List (String × CacheEntry)

/-- Dict lookup `cache[url]` / membership `url in cache`. -/
def storeFind : List (String × CacheEntry) → String → Option CacheEntry
  | [], _ => none
  | (k, v) :: rest, url => if k == url then some v else storeFind rest url

/-- Dict assignment `cache[url] = entry`: replace the binding in place if
the key is present, otherwise append. -/
def storeSet : List (String × CacheEntry) → String → CacheEntry → List (String × CacheEntry)
  | [], url, e => [(url, e)]
  | (k, v) :: rest, url, e =>
    if k == url then (url, e) :: rest else (k, v) :: storeSet rest url e

/-- State of the persisted cache file `CACHE_FILE`. -/
inductive RawStorage where
  | absent
  | corrupt
  | valid (store : List (String × CacheEntry))

/-- Lines 93–100 of `src/utils.py`: load the store; a missing file or a
`json.JSONDecodeError` / `OSError` yields the empty dict. -/
def loadStore : RawStorage → List (String × CacheEntry)
  | RawStorage.absent => []
  | RawStorage.corrupt => []
  | RawStorage.valid store => store

/-- Outcome of `requests.get(url)` + `raise_for_status` + `.json()`:
either JSON data or a `requests.RequestException`. -/
inductive FetchResult where
  | success (data : String)
  | failure
deriving DecidableEq, Repr

/-- What one `cached_request` call does: the returned data or the raised
exception, the store written to `CACHE_FILE` (`none` when the file is not
rewritten), whether an outbound `requests.get` was performed, and whether
the stale-fallback warning was printed. -/
structure RequestOutcome where
  result : Except Unit String
  savedStore : Option (List (String × CacheEntry))
  fetched : Bool
  warned : Bool
deriving Repr

/-- Lines 112–134 of `src/utils.py`: the `try: requests.get ...` block,
entered on a cache miss or an expired entry. -/
def attemptFetch (cache : List (String × CacheEntry)) (now : ℚ) (url : String) (fetch : FetchResult) : RequestOutcome :=
  match fetch with
  | FetchResult.success data =>
    { result := Except.ok data
      savedStore := some (storeSet cache url ⟨data, some now⟩)
      fetched := true
      warned := false }
  | FetchResult.failure =>
    match storeFind cache url with
    | some e =>
      { result := Except.ok e.data, savedStore := none, fetched := true, warned := true }
    | none =>
      { result := Except.error (), savedStore := none, fetched := true, warned := false }

/-- `cached_request(url)` of `src/utils.py`, as a function of the persisted
storage state, the current time `time.time()`, and the (per-call) result
the network would give. -/
def cached_request (raw : RawStorage) (now : ℚ) (url : String) (fetch : FetchResult) : RequestOutcome :=
  let cache := loadStore raw
  match storeFind cache url with
  | some e =>
    if now - entryTimestamp e < CACHE_EXPIRATION then
      { result := Except.ok e.data, savedStore := none, fetched := false, warned := false }
    else
      attemptFetch cache now url fetch
  | none => attemptFetch cache now url fetch

end Cache

namespace Sim

theorem pyRound_abs_sub_le (q : ℚ) : |(pyRound q : ℚ) - q| ≤ 1/2 := by
  have h0 : (⌊q⌋ : ℚ) ≤ q := Int.floor_le q
  have h1 : q < ⌊q⌋ + 1 := Int.lt_floor_add_one q
  rw [abs_le]
  unfold pyRound
  split_ifs with hlt hgt hev <;> constructor <;> push_cast <;> linarith

theorem pyRound_zero : pyRound 0 = 0 := by
  norm_num [pyRound]

theorem abs_sum_pyRound_sub (g : String × ℚ → ℚ) (l : List (String × ℚ)) :
    |(l.map fun p => ((pyRound (g p) : ℚ) - g p)).sum| ≤ l.length / 2 := by
  induction l with
  | nil => simp
  | cons x xs ih =>
    have hx := pyRound_abs_sub_le (g x)
    have htri := abs_add ((pyRound (g x) : ℚ) - g x)
      ((xs.map fun p => ((pyRound (g p) : ℚ) - g p)).sum)
    rw [List.map_cons, List.sum_cons, List.length_cons]
    have hb : |((pyRound (g x) : ℚ) - g x)
        + (xs.map fun p => ((pyRound (g p) : ℚ) - g p)).sum|
        ≤ 1/2 + (xs.length : ℚ) / 2 := le_trans htri (add_le_add hx ih)
    have hc : ((xs.length + 1 : ℕ) : ℚ) = (xs.length : ℚ) + 1 := by push_cast; ring
    rw [hc]
    linarith

theorem sum_cast_pyRound_sub (g : String × ℚ → ℚ) (l : List (String × ℚ)) :
    ((l.map fun p => pyRound (g p)).sum : ℚ) - (l.map g).sum
      = (l.map fun p => ((pyRound (g p) : ℚ) - g p)).sum := by
  induction l with
  | nil => simp
  | cons x xs ih =>
    rw [List.map_cons, List.sum_cons, Int.cast_add, List.map_cons, List.sum_cons,
      List.map_cons, List.sum_cons, ← ih]
    ring

theorem planLoop_eq_map (total : ℚ) (runs : ℕ) (h : total ≠ 0) :
    ∀ l : List (String × ℚ),
      planLoop total runs l = Except.ok (l.map fun p => (p.1, pyRound (p.2 / total * runs)))
  | [] => rfl
  | (b, w) :: rest => by
    simp [planLoop, h, planLoop_eq_map total runs h rest]

end Sim

namespace Sim

theorem sum_scaled_weights (weights : List (String × ℚ)) (runs : ℕ)
    (h : totalWeights weights ≠ 0) :
    (weights.map fun p => p.2 / totalWeights weights * runs).sum = runs := by
  have hfun : (fun p : String × ℚ => p.2 / totalWeights weights * runs)
      = fun p : String × ℚ => p.2 * ((runs : ℚ) / totalWeights weights) := by
    funext p
    ring
  rw [hfun, List.sum_map_mul_right]
  show totalWeights weights * ((runs : ℚ) / totalWeights weights) = runs
  field_simp

end Sim

/-- C1: with a weight table of positive total weight `S` and total run
count `R ≥ 0`, the planner succeeds and allocates, for each source in
table order, `round(weight / S * R)` under round-half-to-even; with
`R = 0` every allocated count is `0` and no error is raised. -/
theorem planner_allocates_rounded_share (weights : List (String × ℚ)) (runs : ℕ)
    (hS : 0 < Sim.totalWeights weights) :
    Sim.planWeightedJobs weights runs
      = Except.ok (weights.map fun p =>
          (p.1, Sim.pyRound (p.2 / Sim.totalWeights weights * runs))) ∧
    Sim.planWeightedJobs weights 0 = Except.ok (weights.map fun p => (p.1, 0)) := by
  have hne : Sim.totalWeights weights ≠ 0 := ne_of_gt hS
  refine ⟨Sim.planLoop_eq_map _ _ hne weights, ?_⟩
  rw [Sim.planWeightedJobs, Sim.planLoop_eq_map _ _ hne weights]
  simp [Sim.pyRound_zero]

/-- Witness for C1 at the spec's concrete scenario: weights
`{a: 1, b: 3}`, `R = 8` allocate `a: 2, b: 6`, in table order. -/
theorem planner_allocates_rounded_share_witness :
    0 < Sim.totalWeights [("a", (1 : ℚ)), ("b", 3)] ∧
    Sim.planWeightedJobs [("a", (1 : ℚ)), ("b", 3)] 8
      = Except.ok [("a", 2), ("b", 6)] ∧
    Sim.planWeightedJobs [("a", (1 : ℚ)), ("b", 3)] 0
      = Except.ok [("a", 0), ("b", 0)] := by
  have h0 : 0 < Sim.totalWeights [("a", (1 : ℚ)), ("b", 3)] := by
    norm_num [Sim.totalWeights]
  have h := planner_allocates_rounded_share [("a", (1 : ℚ)), ("b", 3)] 8 h0
  refine ⟨h0, ?_, ?_⟩
  · rw [h.1]
    norm_num [Sim.totalWeights, Sim.pyRound]
  · rw [h.2]
    rfl

/-- C2: with `n` sources of positive total weight, the sum of the planned
per-source counts deviates from `R` by at most `(n − 1) × 0.5` rounded up,
i.e. by at most `⌊n / 2⌋`; per-source rounding errors of at most `1/2`
each are the only source of deviation. -/
theorem planner_total_deviation_bound (weights : List (String × ℚ)) (runs : ℕ)
    (hS : 0 < Sim.totalWeights weights) (plan : List (String × ℤ))
    (hplan : Sim.planWeightedJobs weights runs = Except.ok plan) :
    |(plan.map Prod.snd).sum - (runs : ℤ)| ≤ (weights.length : ℤ) / 2 := by
  have hne : Sim.totalWeights weights ≠ 0 := ne_of_gt hS
  rw [Sim.planWeightedJobs, Sim.planLoop_eq_map _ _ hne weights] at hplan
  have hplan' : plan = weights.map fun p =>
      (p.1, Sim.pyRound (p.2 / Sim.totalWeights weights * runs)) :=
    (Except.ok.inj hplan).symm
  subst hplan'
  have hmap : ((weights.map fun p =>
      (p.1, Sim.pyRound (p.2 / Sim.totalWeights weights * runs))).map Prod.snd)
      = weights.map fun p => Sim.pyRound (p.2 / Sim.totalWeights weights * runs) := by
    rw [List.map_map]
    rfl
  rw [hmap]
  have hqsum : (((weights.map fun p =>
        Sim.pyRound (p.2 / Sim.totalWeights weights * runs)).sum : ℤ) : ℚ) - (runs : ℚ)
      = (weights.map fun p =>
          ((Sim.pyRound (p.2 / Sim.totalWeights weights * runs) : ℚ)
            - p.2 / Sim.totalWeights weights * runs)).sum := by
    have h2 := Sim.sum_scaled_weights weights runs hne
    calc (((weights.map fun p =>
          Sim.pyRound (p.2 / Sim.totalWeights weights * runs)).sum : ℤ) : ℚ) - (runs : ℚ)
        = (((weights.map fun p =>
            Sim.pyRound (p.2 / Sim.totalWeights weights * runs)).sum : ℤ) : ℚ)
          - (weights.map fun p => p.2 / Sim.totalWeights weights * (runs : ℚ)).sum := by
          rw [h2]
      _ = (weights.map fun p =>
            ((Sim.pyRound (p.2 / Sim.totalWeights weights * runs) : ℚ)
              - p.2 / Sim.totalWeights weights * runs)).sum :=
          Sim.sum_cast_pyRound_sub (fun p => p.2 / Sim.totalWeights weights * runs) weights
  have habs : |(((weights.map fun p =>
        Sim.pyRound (p.2 / Sim.totalWeights weights * runs)).sum : ℤ) : ℚ) - (runs : ℚ)|
      ≤ (weights.length : ℚ) / 2 := by
    rw [hqsum]
    exact Sim.abs_sum_pyRound_sub (fun p => p.2 / Sim.totalWeights weights * runs) weights
  set d : ℤ := (weights.map fun p =>
      Sim.pyRound (p.2 / Sim.totalWeights weights * runs)).sum - (runs : ℤ) with hd
  have hcast : ((d : ℤ) : ℚ) = (((weights.map fun p =>
      Sim.pyRound (p.2 / Sim.totalWeights weights * runs)).sum : ℤ) : ℚ) - (runs : ℚ) := by
    rw [hd]
    push_cast
    ring
  have habs' : |((d : ℤ) : ℚ)| ≤ (weights.length : ℚ) / 2 := by
    rw [hcast]
    exact habs
  have h2q : ((2 * |d| : ℤ) : ℚ) ≤ ((weights.length : ℤ) : ℚ) := by
    rw [Int.cast_mul, Int.cast_abs]
    push_cast
    rw [← Int.cast_abs] at habs'
    push_cast at habs'
    linarith
  have h2 : 2 * |d| ≤ (weights.length : ℤ) := by exact_mod_cast h2q
  have hnn : 0 ≤ |d| := abs_nonneg d
  omega

/-- Witness for C2: weights `{a: 1, b: 1}` and `R = 1` give counts
`0, 0` (both exact shares are `0.5`, rounded to even), so the total
deviates from `R` by `1 = ⌊2 / 2⌋`. -/
theorem planner_total_deviation_bound_witness :
    0 < Sim.totalWeights [("a", (1 : ℚ)), ("b", 1)] ∧
    Sim.planWeightedJobs [("a", (1 : ℚ)), ("b", 1)] 1
      = Except.ok [("a", 0), ("b", 0)] ∧
    |([("a", (0 : ℤ)), ("b", 0)].map Prod.snd).sum - (1 : ℤ)|
      ≤ (([("a", (1 : ℚ)), ("b", 1)].length : ℤ)) / 2 := by
  have h0 : 0 < Sim.totalWeights [("a", (1 : ℚ)), ("b", 1)] := by
    norm_num [Sim.totalWeights]
  have hplan : Sim.planWeightedJobs [("a", (1 : ℚ)), ("b", 1)] 1
      = Except.ok [("a", 0), ("b", 0)] := by
    norm_num [Sim.planWeightedJobs, Sim.planLoop, Sim.totalWeights, Sim.pyRound]
  exact ⟨h0, hplan, planner_total_deviation_bound _ 1 h0 _ hplan⟩

/-- C3 counterexample: planning with an *empty* weight table and `R = 5`
returns successfully with an empty allocation — a silent no-op, not the
fatal configuration error the claim requires. -/
theorem empty_weight_table_is_silent_noop :
    Sim.planWeightedJobs [] 5 = Except.ok [] := rfl

/-- C3 amended: a *nonempty* weight table summing to zero makes planning
fail (`ZeroDivisionError` from `weight / total_weights`) before any job
is dispatched, for every `R`; a missing or empty weight table instead
yields a successful empty plan (silent no-op), not an error. -/
theorem zero_sum_nonempty_table_fails (weights : List (String × ℚ)) (runs : ℕ)
    (hne : weights ≠ []) (hzero : Sim.totalWeights weights = 0) :
    Sim.planWeightedJobs weights runs = Except.error Sim.PlanError.zeroDivisionError ∧
    (∀ r : ℕ, Sim.planWeightedJobs [] r = Except.ok []) ∧
    (∀ r : ℕ, Sim.planWeightedJobs (Sim.getWeightTable none) r = Except.ok []) := by
  refine ⟨?_, fun r => rfl, fun r => rfl⟩
  match weights with
  | [] => exact absurd rfl hne
  | (b, w) :: rest =>
    rw [Sim.planWeightedJobs, hzero]
    simp [Sim.planLoop]

/-- Witness for C3 amended: the nonempty table `{a: 1, b: −1}` sums to
zero and planning `R = 7` runs fails. -/
theorem zero_sum_nonempty_table_fails_witness :
    [("a", (1 : ℚ)), ("b", -1)] ≠ [] ∧
    Sim.totalWeights [("a", (1 : ℚ)), ("b", -1)] = 0 ∧
    Sim.planWeightedJobs [("a", (1 : ℚ)), ("b", -1)] 7
      = Except.error Sim.PlanError.zeroDivisionError := by
  have h1 : ([("a", (1 : ℚ)), ("b", -1)] : List (String × ℚ)) ≠ [] := by
    simp
  have h2 : Sim.totalWeights [("a", (1 : ℚ)), ("b", -1)] = 0 := by
    norm_num [Sim.totalWeights]
  exact ⟨h1, h2, (zero_sum_nonempty_table_fails _ 7 h1 h2).1⟩

namespace Sim

theorem dictGet_append (l₁ l₂ : List (String × JVal)) (k : String) :
    dictGet (l₁ ++ l₂) k
      = match dictGet l₂ k with
        | some v => some v
        | none => dictGet l₁ k := by
  induction l₁ with
  | nil =>
    simp only [List.nil_append]
    cases dictGet l₂ k <;> rfl
  | cons x xs ih =>
    obtain ⟨a, b⟩ := x
    rw [List.cons_append]
    show (match dictGet (xs ++ l₂) k with
          | some v' => some v'
          | none => if a == k then some b else none)
        = _
    rw [ih]
    cases dictGet l₂ k <;> rfl

theorem dictGet_eq_none (l : List (String × JVal)) (k : String)
    (h : ∀ p ∈ l, p.1 ≠ k) : dictGet l k = none := by
  induction l with
  | nil => rfl
  | cons x xs ih =>
    obtain ⟨a, b⟩ := x
    have ha : a ≠ k := h (a, b) (List.mem_cons_self _ _)
    have hxs : dictGet xs k = none := ih fun p hp => h p (List.mem_cons_of_mem _ hp)
    show (match dictGet xs k with
          | some v' => some v'
          | none => if a == k then some b else none) = none
    rw [hxs]
    simp [ha]

end Sim

/-- C4 (code bug): the code strips the datasource with
`binary.rstrip(".csv")`, which removes *every* trailing character drawn
from the set `{'.', 'c', 's', 'v'}` rather than the `.csv` suffix: the
source name `"stats.csv"` yields datasource `"stat"`, not `"stats"` as
the claim requires. -/
theorem datasource_rstrip_strips_charset :
    Sim.pyRstrip "stats.csv" ".csv" = "stat" ∧
    Sim.dictGet (Sim.mkBinaryJob "stats.csv" [] 0) "datasource"
      = some (Sim.JVal.s "stat") ∧
    Sim.pyRstrip "original.csv" ".csv" = "original" := by
  refine ⟨by decide, by decide, by decide⟩

/-- C5 counterexample: `**runtime_options` is merged after the fixed
fields, so a runtime-options map that itself binds `"randomized"`
overrides the dispatcher's value: in a batch of size 1 built with
runtime options `{"randomized": false}`, job 0 carries
`randomized = false`, not `true`. -/
theorem runtime_options_override_fixed_fields :
    (Sim.standardJobs [("randomized", Sim.JVal.b false)] 1).map
        (fun j => Sim.dictGet j "randomized")
      = [some (Sim.JVal.b false)] := by decide

/-- C5 amended: for every runtime-options map that does *not* itself bind
the keys `"run_no"` or `"randomized"`, the `i`-th job (0-based, `i < N`)
of a batch built in uniform or weighted mode has `run_no` equal to the
decimal string of `i + 1` and `randomized = true`. -/
theorem job_run_no_and_randomized (ro : List (String × Sim.JVal)) (runs : ℕ)
    (binary : String) (i : ℕ) (hi : i < runs)
    (hro : ∀ p ∈ ro, p.1 ≠ "run_no" ∧ p.1 ≠ "randomized") :
    (Sim.standardJobs ro runs)[i]? = some (Sim.mkStandardJob ro i) ∧
    Sim.dictGet (Sim.mkStandardJob ro i) "run_no"
      = some (Sim.JVal.s (toString (i + 1))) ∧
    Sim.dictGet (Sim.mkStandardJob ro i) "randomized" = some (Sim.JVal.b true) ∧
    (Sim.binaryJobs binary ro runs)[i]? = some (Sim.mkBinaryJob binary ro i) ∧
    Sim.dictGet (Sim.mkBinaryJob binary ro i) "run_no"
      = some (Sim.JVal.s (toString (i + 1))) ∧
    Sim.dictGet (Sim.mkBinaryJob binary ro i) "randomized"
      = some (Sim.JVal.b true) := by
  have hnone1 : Sim.dictGet ro "run_no" = none :=
    Sim.dictGet_eq_none ro _ fun p hp => (hro p hp).1
  have hnone2 : Sim.dictGet ro "randomized" = none :=
    Sim.dictGet_eq_none ro _ fun p hp => (hro p hp).2
  refine ⟨?_, ?_, ?_, ?_, ?_, ?_⟩
  · simp [Sim.standardJobs, List.getElem?_map, List.getElem?_range, hi]
  · rw [Sim.mkStandardJob, Sim.dictGet_append, hnone1]
    rfl
  · rw [Sim.mkStandardJob, Sim.dictGet_append, hnone2]
    rfl
  · simp [Sim.binaryJobs, List.getElem?_map, List.getElem?_range, hi]
  · rw [Sim.mkBinaryJob, Sim.dictGet_append, hnone1]
    rfl
  · rw [Sim.mkBinaryJob, Sim.dictGet_append, hnone2]
    rfl

/-- Witness for C5 amended: a batch of 3 jobs with runtime options
`{"horizon": 5}`; job 1 has `run_no = "2"` and `randomized = true` in
both modes. -/
theorem job_run_no_and_randomized_witness :
    (1 < 3 ∧ ∀ p ∈ [("horizon", Sim.JVal.i 5)], p.1 ≠ "run_no" ∧ p.1 ≠ "randomized") ∧
    Sim.dictGet (Sim.mkStandardJob [("horizon", Sim.JVal.i 5)] 1) "run_no"
      = some (Sim.JVal.s "2") ∧
    Sim.dictGet (Sim.mkBinaryJob "original.csv" [("horizon", Sim.JVal.i 5)] 1)
        "randomized" = some (Sim.JVal.b true) := by
  have h := job_run_no_and_randomized [("horizon", Sim.JVal.i 5)] 3 "original.csv" 1
    (by decide) (by decide)
  exact ⟨⟨by decide, by decide⟩, h.2.1, h.2.2.2.2.2⟩

namespace Cache

theorem storeFind_storeSet_self (s : List (String × CacheEntry)) (url : String)
    (e : CacheEntry) : storeFind (storeSet s url e) url = some e := by
  induction s with
  | nil => simp [storeSet, storeFind]
  | cons x xs ih =>
    obtain ⟨k, v⟩ := x
    by_cases h : k = url
    · subst h
      simp [storeSet, storeFind]
    · simp only [storeSet, beq_iff_eq, h, if_false]
      simp only [storeFind, beq_iff_eq, h, if_false]
      exact ih

theorem storeFind_storeSet_other (s : List (String × CacheEntry)) (url u : String)
    (e : CacheEntry) (h : u ≠ url) :
    storeFind (storeSet s url e) u = storeFind s u := by
  have h' : url ≠ u := fun hh => h hh.symm
  induction s with
  | nil => simp [storeSet, storeFind, h']
  | cons x xs ih =>
    obtain ⟨k, v⟩ := x
    by_cases hk : k = url
    · subst hk
      simp [storeSet, storeFind, h']
    · by_cases hku : k = u
      · subst hku
        simp [storeSet, storeFind, hk]
      · simp [storeSet, storeFind, hk, hku, ih]

end Cache

/-- C6: a `cached_request` whose store holds an entry for `url` with
`now − timestamp < 300` returns that entry's data, performs no outbound
fetch and does not rewrite the store; consequently a miss that fetches
successfully at `t₁` followed by a second call at `t₂` with
`t₂ − t₁ < 300` performs exactly one fetch and both calls return the same
data. -/
theorem fresh_hit_returns_cached (store : List (String × Cache.CacheEntry))
    (url : String) (e : Cache.CacheEntry) (now : ℚ) (f : Cache.FetchResult)
    (hfind : Cache.storeFind store url = some e)
    (hfresh : now - Cache.entryTimestamp e < Cache.CACHE_EXPIRATION) :
    Cache.cached_request (Cache.RawStorage.valid store) now url f
      = { result := Except.ok e.data, savedStore := none,
          fetched := false, warned := false } ∧
    ∀ (store₀ : List (String × Cache.CacheEntry)) (t₁ t₂ : ℚ) (d : String)
        (f₂ : Cache.FetchResult),
      Cache.storeFind store₀ url = none → 0 ≤ t₂ - t₁ →
      t₂ - t₁ < Cache.CACHE_EXPIRATION →
      (Cache.cached_request (Cache.RawStorage.valid store₀) t₁ url
          (Cache.FetchResult.success d)).result = Except.ok d ∧
      (Cache.cached_request (Cache.RawStorage.valid store₀) t₁ url
          (Cache.FetchResult.success d)).fetched = true ∧
      (Cache.cached_request (Cache.RawStorage.valid store₀) t₁ url
          (Cache.FetchResult.success d)).savedStore
        = some (Cache.storeSet store₀ url ⟨d, some t₁⟩) ∧
      Cache.cached_request
          (Cache.RawStorage.valid (Cache.storeSet store₀ url ⟨d, some t₁⟩)) t₂ url f₂
        = { result := Except.ok d, savedStore := none,
            fetched := false, warned := false } := by
  constructor
  · simp [Cache.cached_request, Cache.loadStore, hfind, hfresh]
  · intro store₀ t₁ t₂ d f₂ hmiss hnn hlt
    have hfind₁ : Cache.storeFind (Cache.storeSet store₀ url ⟨d, some t₁⟩) url
        = some ⟨d, some t₁⟩ := Cache.storeFind_storeSet_self store₀ url _
    have hfresh₁ : t₂ - Cache.entryTimestamp ⟨d, some t₁⟩ < Cache.CACHE_EXPIRATION := by
      simpa [Cache.entryTimestamp] using hlt
    refine ⟨?_, ?_, ?_, ?_⟩
    · simp [Cache.cached_request, Cache.loadStore, hmiss, Cache.attemptFetch]
    · simp [Cache.cached_request, Cache.loadStore, hmiss, Cache.attemptFetch]
    · simp [Cache.cached_request, Cache.loadStore, hmiss, Cache.attemptFetch]
    · simp [Cache.cached_request, Cache.loadStore, hfind₁, hfresh₁]

/-- Witness for C6: the spec's scenario 3 — entry `("u" ↦ (X, t=0))`,
second call at `t = 100 < 300` returns `X` with no fetch and no store
rewrite. -/
theorem fresh_hit_returns_cached_witness :
    Cache.storeFind [("u", Cache.CacheEntry.mk "X" (some 0))] "u"
      = some (Cache.CacheEntry.mk "X" (some 0)) ∧
    (100 : ℚ) - Cache.entryTimestamp (Cache.CacheEntry.mk "X" (some 0))
      < Cache.CACHE_EXPIRATION ∧
    Cache.cached_request
        (Cache.RawStorage.valid [("u", Cache.CacheEntry.mk "X" (some 0))]) 100 "u"
        Cache.FetchResult.failure
      = { result := Except.ok "X", savedStore := none,
          fetched := false, warned := false } := by
  have h1 : Cache.storeFind [("u", Cache.CacheEntry.mk "X" (some 0))] "u"
      = some (Cache.CacheEntry.mk "X" (some 0)) := rfl
  have h2 : (100 : ℚ) - Cache.entryTimestamp (Cache.CacheEntry.mk "X" (some 0))
      < Cache.CACHE_EXPIRATION := by
    norm_num [Cache.entryTimestamp, Cache.CACHE_EXPIRATION]
  exact ⟨h1, h2, (fresh_hit_returns_cached _ "u" _ 100 _ h1 h2).1⟩

/-- C7: on a miss (no entry for `url`) or an expired entry, a successful
fetch makes `cached_request` persist the whole updated store — the entry
for `url` now carries the fresh data with `timestamp = now`, every other
url's entry is unchanged — and return the fresh data. -/
theorem miss_or_expired_success_persists (store : List (String × Cache.CacheEntry))
    (url : String) (now : ℚ) (d : String)
    (hmiss : Cache.storeFind store url = none ∨
      ∃ e, Cache.storeFind store url = some e ∧
        Cache.CACHE_EXPIRATION ≤ now - Cache.entryTimestamp e) :
    (Cache.cached_request (Cache.RawStorage.valid store) now url
        (Cache.FetchResult.success d)).result = Except.ok d ∧
    (Cache.cached_request (Cache.RawStorage.valid store) now url
        (Cache.FetchResult.success d)).savedStore
      = some (Cache.storeSet store url ⟨d, some now⟩) ∧
    Cache.storeFind (Cache.storeSet store url ⟨d, some now⟩) url
      = some ⟨d, some now⟩ ∧
    ∀ u, u ≠ url →
      Cache.storeFind (Cache.storeSet store url ⟨d, some now⟩) u
        = Cache.storeFind store u := by
  have houtcome : Cache.cached_request (Cache.RawStorage.valid store) now url
      (Cache.FetchResult.success d)
      = Cache.attemptFetch store now url (Cache.FetchResult.success d) := by
    rcases hmiss with hnone | ⟨e, hfind, hstale⟩
    · simp [Cache.cached_request, Cache.loadStore, hnone]
    · have : ¬ (now - Cache.entryTimestamp e < Cache.CACHE_EXPIRATION) :=
        not_lt.mpr hstale
      simp [Cache.cached_request, Cache.loadStore, hfind, this]
  refine ⟨?_, ?_, Cache.storeFind_storeSet_self store url _,
    fun u hu => Cache.storeFind_storeSet_other store url u _ hu⟩
  · rw [houtcome]
    rfl
  · rw [houtcome]
    rfl

/-- Witness for C7: an expired entry `("u" ↦ (X, t=0))` refreshed at
`t = 400` with fresh data `Z`; the persisted store maps `"u"` to
`(Z, 400)` and leaves the unrelated `"v"` entry intact. -/
theorem miss_or_expired_success_persists_witness :
    (Cache.storeFind [("u", Cache.CacheEntry.mk "X" (some 0)),
        ("v", Cache.CacheEntry.mk "Y" (some 0))] "u"
      = some (Cache.CacheEntry.mk "X" (some 0)) ∧
     Cache.CACHE_EXPIRATION
      ≤ (400 : ℚ) - Cache.entryTimestamp (Cache.CacheEntry.mk "X" (some 0))) ∧
    (Cache.cached_request
        (Cache.RawStorage.valid [("u", Cache.CacheEntry.mk "X" (some 0)),
          ("v", Cache.CacheEntry.mk "Y" (some 0))]) 400 "u"
        (Cache.FetchResult.success "Z")).result = Except.ok "Z" ∧
    Cache.storeFind
        (Cache.storeSet [("u", Cache.CacheEntry.mk "X" (some 0)),
          ("v", Cache.CacheEntry.mk "Y" (some 0))] "u"
          (Cache.CacheEntry.mk "Z" (some 400))) "v"
      = Cache.storeFind [("u", Cache.CacheEntry.mk "X" (some 0)),
          ("v", Cache.CacheEntry.mk "Y" (some 0))] "v" := by
  have hfind : Cache.storeFind [("u", Cache.CacheEntry.mk "X" (some 0)),
      ("v", Cache.CacheEntry.mk "Y" (some 0))] "u"
      = some (Cache.CacheEntry.mk "X" (some 0)) := rfl
  have hstale : Cache.CACHE_EXPIRATION
      ≤ (400 : ℚ) - Cache.entryTimestamp (Cache.CacheEntry.mk "X" (some 0)) := by
    norm_num [Cache.entryTimestamp, Cache.CACHE_EXPIRATION]
  have h := miss_or_expired_success_persists
    [("u", Cache.CacheEntry.mk "X" (some 0)), ("v", Cache.CacheEntry.mk "Y" (some 0))]
    "u" 400 "Z" (Or.inr ⟨_, hfind, hstale⟩)
  exact ⟨⟨hfind, hstale⟩, h.1, h.2.2.2 "v" (by decide)⟩

/-- C8: when the outbound fetch fails, a (now-stale) entry for `url` is
served without raising — only flagging a warning and writing nothing —
while the absence of any entry for `url` surfaces the fetch failure to
the caller. -/
theorem fetch_failure_stale_fallback (store : List (String × Cache.CacheEntry))
    (url : String) (now : ℚ) (e : Cache.CacheEntry)
    (hfind : Cache.storeFind store url = some e)
    (hstale : Cache.CACHE_EXPIRATION ≤ now - Cache.entryTimestamp e) :
    Cache.cached_request (Cache.RawStorage.valid store) now url
        Cache.FetchResult.failure
      = { result := Except.ok e.data, savedStore := none,
          fetched := true, warned := true } ∧
    ∀ (store₀ : List (String × Cache.CacheEntry)) (t : ℚ),
      Cache.storeFind store₀ url = none →
      Cache.cached_request (Cache.RawStorage.valid store₀) t url
          Cache.FetchResult.failure
        = { result := Except.error (), savedStore := none,
            fetched := true, warned := false } := by
  constructor
  · have hnl : ¬ (now - Cache.entryTimestamp e < Cache.CACHE_EXPIRATION) :=
      not_lt.mpr hstale
    simp [Cache.cached_request, Cache.loadStore, hfind, hnl, Cache.attemptFetch]
  · intro store₀ t hnone
    simp [Cache.cached_request, Cache.loadStore, hnone, Cache.attemptFetch]

/-- Witness for C8: the spec's scenario 4 — the fetch at `t = 400` fails
and the stale entry `(X, t=0)` is served; with an empty store the failure
is surfaced. -/
theorem fetch_failure_stale_fallback_witness :
    (Cache.storeFind [("u", Cache.CacheEntry.mk "X" (some 0))] "u"
      = some (Cache.CacheEntry.mk "X" (some 0)) ∧
     Cache.CACHE_EXPIRATION
      ≤ (400 : ℚ) - Cache.entryTimestamp (Cache.CacheEntry.mk "X" (some 0))) ∧
    Cache.cached_request
        (Cache.RawStorage.valid [("u", Cache.CacheEntry.mk "X" (some 0))]) 400 "u"
        Cache.FetchResult.failure
      = { result := Except.ok "X", savedStore := none,
          fetched := true, warned := true } ∧
    Cache.cached_request (Cache.RawStorage.valid []) 400 "u"
        Cache.FetchResult.failure
      = { result := Except.error (), savedStore := none,
          fetched := true, warned := false } := by
  have hfind : Cache.storeFind [("u", Cache.CacheEntry.mk "X" (some 0))] "u"
      = some (Cache.CacheEntry.mk "X" (some 0)) := rfl
  have hstale : Cache.CACHE_EXPIRATION
      ≤ (400 : ℚ) - Cache.entryTimestamp (Cache.CacheEntry.mk "X" (some 0)) := by
    norm_num [Cache.entryTimestamp, Cache.CACHE_EXPIRATION]
  have h := fetch_failure_stale_fallback [("u", Cache.CacheEntry.mk "X" (some 0))]
    "u" 400 _ hfind hstale
  exact ⟨⟨hfind, hstale⟩, h.1, h.2 [] 400 rfl⟩

/-- C9: an absent or unparsable persisted store is treated as the empty
store: the call behaves exactly as with a valid empty store, proceeds as a
miss (an outbound fetch is attempted), and a successful fetch returns the
fresh data — the corruption itself never surfaces as an error. -/
theorem corrupt_storage_self_heals (now : ℚ) (url : String) (f : Cache.FetchResult) :
    Cache.cached_request Cache.RawStorage.absent now url f
      = Cache.cached_request (Cache.RawStorage.valid []) now url f ∧
    Cache.cached_request Cache.RawStorage.corrupt now url f
      = Cache.cached_request (Cache.RawStorage.valid []) now url f ∧
    (Cache.cached_request Cache.RawStorage.corrupt now url f).fetched = true ∧
    ∀ d, f = Cache.FetchResult.success d →
      (Cache.cached_request Cache.RawStorage.corrupt now url f).result
        = Except.ok d := by
  refine ⟨rfl, rfl, ?_, ?_⟩
  · cases f <;>
      simp [Cache.cached_request, Cache.loadStore, Cache.storeFind, Cache.attemptFetch]
  · intro d hd
    subst hd
    simp [Cache.cached_request, Cache.loadStore, Cache.storeFind, Cache.attemptFetch]

/-- C10: an entry stored without a `"timestamp"` key reads back as
timestamp `0`, so whenever `now ≥ 300` the entry counts as expired: a
fresh fetch is attempted rather than serving the entry or raising, a
successful fetch returns the fresh data, and on fetch failure the entry's
data is still served as the stale fallback. -/
theorem missing_timestamp_reads_as_epoch (store : List (String × Cache.CacheEntry))
    (url : String) (now : ℚ) (f : Cache.FetchResult) (e : Cache.CacheEntry)
    (hfind : Cache.storeFind store url = some e)
    (hts : e.timestamp = none)
    (hnow : Cache.CACHE_EXPIRATION ≤ now) :
    (Cache.cached_request (Cache.RawStorage.valid store) now url f).fetched = true ∧
    (∀ d, f = Cache.FetchResult.success d →
      (Cache.cached_request (Cache.RawStorage.valid store) now url f).result
        = Except.ok d) ∧
    (f = Cache.FetchResult.failure →
      (Cache.cached_request (Cache.RawStorage.valid store) now url f).result
        = Except.ok e.data) := by
  have hts0 : Cache.entryTimestamp e = 0 := by
    simp [Cache.entryTimestamp, hts]
  have hexp : ¬ (now - Cache.entryTimestamp e < Cache.CACHE_EXPIRATION) := by
    rw [hts0]
    simpa using not_lt.mpr hnow
  have houtcome : Cache.cached_request (Cache.RawStorage.valid store) now url f
      = Cache.attemptFetch store now url f := by
    simp [Cache.cached_request, Cache.loadStore, hfind, hexp]
  refine ⟨?_, ?_, ?_⟩
  · rw [houtcome]
    cases f <;> simp [Cache.attemptFetch, hfind]
  · intro d hd
    subst hd
    rw [houtcome]
    rfl
  · intro hd
    subst hd
    rw [houtcome]
    simp [Cache.attemptFetch, hfind]

/-- Witness for C10: the entry for `"u"` has no timestamp; at `t = 400`
with a failing fetch, a fetch is attempted and the entry's data `X` is
still returned. -/
theorem missing_timestamp_reads_as_epoch_witness :
    (Cache.storeFind [("u", Cache.CacheEntry.mk "X" none)] "u"
      = some (Cache.CacheEntry.mk "X" none) ∧
     (Cache.CacheEntry.mk "X" none).timestamp = none ∧
     Cache.CACHE_EXPIRATION ≤ (400 : ℚ)) ∧
    (Cache.cached_request
        (Cache.RawStorage.valid [("u", Cache.CacheEntry.mk "X" none)]) 400 "u"
        Cache.FetchResult.failure).fetched = true ∧
    (Cache.cached_request
        (Cache.RawStorage.valid [("u", Cache.CacheEntry.mk "X" none)]) 400 "u"
        Cache.FetchResult.failure).result = Except.ok "X" := by
  have hfind : Cache.storeFind [("u", Cache.CacheEntry.mk "X" none)] "u"
      = some (Cache.CacheEntry.mk "X" none) := rfl
  have hnow : Cache.CACHE_EXPIRATION ≤ (400 : ℚ) := by
    norm_num [Cache.CACHE_EXPIRATION]
  have h := missing_timestamp_reads_as_epoch [("u", Cache.CacheEntry.mk "X" none)]
    "u" 400 Cache.FetchResult.failure _ hfind rfl hnow
  exact ⟨⟨hfind, rfl, hnow⟩, h.1, h.2.2 rfl⟩
